import Mathlib

/-!
# Verification of the `seaweed` client package (LevenLabs/dank)

Shallow embedding of `src/seaweed/seaweed.go`.

Byte strings (Go `string` / `[]byte` values) are modelled as `List Nat`
with every element `< 256`; textual strings that are only compared or
concatenated are modelled as `List Char`.

The HTTP layer is modelled by passing every operation the abstract
response(s) it would receive: a response is either a transport error or a
status code together with an already-parsed body (`none` standing for a
body that fails JSON decoding).  The pseudo-random draw taken by
`rand.Intn` is modelled as an arbitrary natural number reduced modulo the
number of replicas.  Each operation also reports how many HTTP response
bodies it obtained and how many it closed, transcribing every
`resp.Body.Close()` / `defer` in the source on the paths where it runs.
-/

set_option linter.unusedVariables false
set_option linter.unnecessarySeqFocus false

namespace Seaweed

/-- The error values produced in `seaweed.go`, one constructor per
distinct error site: `ErrorNotFound`, `errors.New("unexpected seaweed
status")`, a transport error from `http.DefaultClient.Do` / `http.Get`,
a `json.Decoder.Decode` failure, a `base64` `DecodeString` failure, and
an `io.Copy` failure. -/
inductive Err where
  | notFound
  | unexpectedStatus
  | transport
  | jsonDecode
  | base64Decode
  | copyFail
  deriving DecidableEq, Repr

/-- The four-kind error taxonomy of the specification (§7); `ConfigError`
is a startup-time condition with no runtime value and is not modelled. -/
inductive ErrKind where
  | notFound
  | requestError
  | decodeError
  deriving DecidableEq, Repr

/-- How each concrete error value of the code is classified by the
specification's taxonomy. -/
def classify : Err → ErrKind
  | .notFound => .notFound
  | .unexpectedStatus => .requestError
  | .transport => .requestError
  | .jsonDecode => .decodeError
  | .base64Decode => .decodeError
  | .copyFail => .requestError

/-! ## The base-64 codec (`var encoder = base64.URLEncoding`)

Go's `base64.URLEncoding` is the padded URL-safe alphabet.  `encodeB64`
transcribes `Encoding.EncodeToString`; `decodeB64` transcribes
`Encoding.DecodeString`, which skips CR and LF anywhere in the input,
consumes four-character quantums, accepts `=` padding only in the final
quantum, and (in the default non-strict mode) ignores unused trailing
bits of a padded quantum. -/

/-- The URL-safe base-64 alphabet used by `base64.URLEncoding`. -/
def b64Alphabet : List Char :=
  ['A', 'B', 'C', 'D', 'E', 'F', 'G', 'H', 'I', 'J', 'K', 'L', 'M',
   'N', 'O', 'P', 'Q', 'R', 'S', 'T', 'U', 'V', 'W', 'X', 'Y', 'Z',
   'a', 'b', 'c', 'd', 'e', 'f', 'g', 'h', 'i', 'j', 'k', 'l', 'm',
   'n', 'o', 'p', 'q', 'r', 's', 't', 'u', 'v', 'w', 'x', 'y', 'z',
   '0', '1', '2', '3', '4', '5', '6', '7', '8', '9', '-', '_']

/-- The alphabet character for a 6-bit value. -/
def b64Char (n : Nat) : Char := b64Alphabet.getD n 'A'

/-- The 6-bit value of an alphabet character (Go's `decodeMap`); `none`
for a character outside the alphabet (including the padding `=`). -/
def b64Index (c : Char) : Option Nat :=
  let i := b64Alphabet.indexOf c
  if i < b64Alphabet.length then some i else none

/-- `Encoding.EncodeToString`: three bytes become four alphabet
characters; a final one- or two-byte group is padded with `=`. -/
def encodeB64 : List Nat → List Char
  | [] => []
  | [a] => [b64Char (a / 4), b64Char (a % 4 * 16), '=', '=']
  | [a, b] => [b64Char (a / 4), b64Char (a % 4 * 16 + b / 16),
               b64Char (b % 16 * 4), '=']
  | a :: b :: c :: rest =>
      b64Char (a / 4) :: b64Char (a % 4 * 16 + b / 16) ::
      b64Char (b % 16 * 4 + c / 64) :: b64Char (c % 64) :: encodeB64 rest

/-- Removal of the CR and LF characters that Go's decoder skips. -/
def stripNl (s : List Char) : List Char :=
  s.filter (fun c => c != '\x0d' && c != '\x0a')

/-- `Encoding.DecodeString` after newline removal: four-character
quantums, padding only at the end, any other shape rejected. -/
def decodeB64Core : List Char → Option (List Nat)
  | [] => some []
  | c1 :: c2 :: c3 :: c4 :: rest =>
    match b64Index c1, b64Index c2 with
    | some a, some b =>
      if c3 = '=' then
        if c4 = '=' ∧ rest = [] then some [a * 4 + b / 16] else none
      else
        match b64Index c3 with
        | some c =>
          if c4 = '=' then
            if rest = [] then some [a * 4 + b / 16, b % 16 * 16 + c / 4]
            else none
          else
            match b64Index c4 with
            | some d =>
              (decodeB64Core rest).map
                (fun tl => (a * 4 + b / 16) :: (b % 16 * 16 + c / 4) ::
                           (c % 4 * 64 + d) :: tl)
            | none => none
        | none => none
    | _, _ => none
  | _ => none

/-- `encoder.DecodeString`. -/
def decodeB64 (s : List Char) : Option (List Nat) :=
  decodeB64Core (stripNl s)

/-! ## The handle codec -/

/-- `AssignResult`: the private `fid` (a byte string owned by the
cluster) and the volume server address `url`. -/
structure AssignResult where
  fid : List Nat
  url : List Char
  deriving DecidableEq, Repr

/-- `AssignResult.Filename`: padded URL-safe base-64 of the fid. -/
def AssignResult.Filename (r : AssignResult) : List Char :=
  encodeB64 r.fid

/-- `decodeFilename`: `strings.Split(f, ".")[0]` — the part before the
first dot — then `encoder.DecodeString`. -/
def decodeFilename (f : List Char) : Option (List Nat) :=
  decodeB64 (f.takeWhile (fun c => c != '.'))

/-- `NewResult`: rebuild an `AssignResult` from an address and an opaque
filename; fails exactly when the filename fails to decode. -/
def NewResult (u : List Char) (filename : List Char) :
    Option AssignResult :=
  match decodeFilename filename with
  | none => none
  | some fid => some ⟨fid, u⟩

/-! ## A validity grammar for padded URL-safe base-64

Written from the specification's phrase "valid base-64 for the padded
URL-safe alphabet": after newline removal the input is a sequence of
four-character quantums of alphabet characters, where only the final
quantum may end in `=` or `==`.  Proved below to agree with success of
`decodeB64`. -/

/-- Membership in the URL-safe alphabet. -/
def isB64Char (c : Char) : Bool := b64Alphabet.contains c

/-- Grammar of a sequence of quantums (post newline removal). -/
def validB64Core : List Char → Bool
  | [] => true
  | c1 :: c2 :: c3 :: c4 :: rest =>
    isB64Char c1 && isB64Char c2 &&
      (if c3 = '=' then c4 = '=' && rest.isEmpty
       else
         isB64Char c3 &&
           (if c4 = '=' then rest.isEmpty
            else isB64Char c4 && validB64Core rest))
  | _ => false

/-- Valid padded URL-safe base-64, newline skipping included. -/
def validB64 (s : List Char) : Bool := validB64Core (stripNl s)

/-! ## The HTTP operations

Each operation receives the abstract outcome of every HTTP request it
would issue: a transport failure or a status code with a parsed body
(`none` for a body `json.Decode` rejects).  Results carry the counts of
response bodies obtained and closed along the executed path. -/

/-- Outcome of issuing one HTTP request: `transportError` for a failure
of `http.Get` / `http.DefaultClient.Do`, otherwise a status code and a
body abstraction. -/
inductive HttpResult (α : Type) where
  | transportError
  | response (status : Nat) (body : α)

/-- `rawAssignResult`: the parsed JSON body of an assign response. -/
structure RawAssignResult where
  fid : List Nat
  url : List Char

/-- A single entry of a lookup response's `locations` array. -/
structure Location where
  url : List Char

/-- `lookupResult`: the parsed JSON body of a lookup response. -/
structure LookupResult where
  locations : List Location

/-- Result of one operation together with the number of HTTP response
bodies it obtained (`opened`) and closed (`closed`). -/
structure OpTrace (α : Type) where
  result : Except Err α
  opened : Nat
  closed : Nat

/-- `handleResp`: compares the status against the expected code; on
mismatch it drains and closes the body (hence the close count `1`) and
returns `ErrorNotFound` for a 404 status, a generic error otherwise. -/
def handleResp (status expectedCode : Nat) : Option Err × Nat :=
  if status ≠ expectedCode then
    (if status = 404 then some Err.notFound else some Err.unexpectedStatus,
     1)
  else (none, 0)

/-- `rand.Intn(n)` produces an index in `[0, n)`; an arbitrary draw from
the random source is reduced into range. -/
def selectIdx (draw n : Nat) : Nat := draw % n

/-- Go's `string(fid)`: the bytes of the fid spliced into a URL. -/
def bytesToChars (bs : List Nat) : List Char := bs.map Char.ofNat

/-- The volume-server URL built by `lookup`:
`"http://" + locationUrl + "/" + fid`. -/
def volumeUrl (u : List Char) (fid : List Nat) : List Char :=
  "http://".toList ++ u ++ "/".toList ++ bytesToChars fid

/-- `Assign` after the master request: non-200 statuses go through
`handleResp`; on 200 the JSON body is decoded (its failure closes the
body via the `defer`) and an `AssignResult` is built from it. -/
def Assign (resp : HttpResult (Option RawAssignResult)) :
    OpTrace AssignResult :=
  match resp with
  | .transportError => ⟨.error .transport, 0, 0⟩
  | .response status body =>
    match handleResp status 200 with
    | (some e, n) => ⟨.error e, 1, n⟩
    | (none, _) =>
      match body with
      | none => ⟨.error .jsonDecode, 1, 1⟩
      | some r => ⟨.ok ⟨r.fid, r.url⟩, 1, 1⟩

/-- `Upload`: the caller's body is copied into the multipart buffer
(`copyOk = false` models an `io.Copy` failure before any request is
made); then the PUT is issued through `doReq` with expected status 201,
and on success the body is closed by the `defer`. -/
def Upload (r : AssignResult) (copyOk : Bool)
    (resp : HttpResult Unit) : OpTrace Unit :=
  if copyOk = false then ⟨.error .copyFail, 0, 0⟩
  else
    match resp with
    | .transportError => ⟨.error .transport, 0, 0⟩
    | .response status _ =>
      match handleResp status 201 with
      | (some e, n) => ⟨.error e, 1, n⟩
      | (none, _) => ⟨.ok (), 1, 1⟩

/-- `lookup`: decode the filename, query the master for the volume id,
JSON-decode the body, treat an empty `locations` list as not-found, and
otherwise pick a random replica and build the volume URL. -/
def lookup (filename : List Char)
    (resp : HttpResult (Option LookupResult)) (draw : Nat) :
    OpTrace (List Char) :=
  match decodeFilename filename with
  | none => ⟨.error .base64Decode, 0, 0⟩
  | some fid =>
    match resp with
    | .transportError => ⟨.error .transport, 0, 0⟩
    | .response status body =>
      match handleResp status 200 with
      | (some e, n) => ⟨.error e, 1, n⟩
      | (none, _) =>
        match body with
        | none => ⟨.error .jsonDecode, 1, 1⟩
        | some r =>
          match r.locations with
          | [] => ⟨.error .notFound, 1, 1⟩
          | l :: ls =>
            let i := selectIdx draw (l :: ls).length
            let u := (l :: ls).get ⟨i, Nat.mod_lt _ (Nat.succ_pos _)⟩
            ⟨.ok (volumeUrl u.url fid), 1, 1⟩

/-- The header collection of a volume-server GET response. -/
structure Header where
  fields : List (List Char × List Char)

/-- The abstract GET response of the volume server: a status, the
headers, and whether streaming the body into the writer fails. -/
structure GetResp where
  status : Nat
  header : Header
  copyErr : Bool

/-- What `Get` hands back: the `*http.Header` (an `Option` models the
nil pointer) and the error, plus the body accounting. -/
structure GetTrace where
  header : Option Header
  error : Option Err
  opened : Nat
  closed : Nat

/-- `Get`: lookup, then GET the volume URL expecting 200; on a status
mismatch the header pointer is returned together with the error
(`handleResp` closed the body); on success the body is streamed and the
`defer` closes it. -/
def Get (filename : List Char)
    (lresp : HttpResult (Option LookupResult)) (draw : Nat)
    (gresp : Option GetResp) : GetTrace :=
  let l := lookup filename lresp draw
  match l.result with
  | .error e => ⟨none, some e, l.opened, l.closed⟩
  | .ok _ =>
    match gresp with
    | none => ⟨none, some .transport, l.opened, l.closed⟩
    | some r =>
      match handleResp r.status 200 with
      | (some e, n) => ⟨some r.header, some e, l.opened + 1, l.closed + n⟩
      | (none, _) =>
        ⟨some r.header, if r.copyErr then some Err.copyFail else none,
         l.opened + 1, l.closed + 1⟩

/-- `Delete`: lookup, then DELETE the volume URL through `doReq` with
expected status 202. -/
def Delete (filename : List Char)
    (lresp : HttpResult (Option LookupResult)) (draw : Nat)
    (dresp : HttpResult Unit) : OpTrace Unit :=
  let l := lookup filename lresp draw
  match l.result with
  | .error e => ⟨.error e, l.opened, l.closed⟩
  | .ok _ =>
    match dresp with
    | .transportError => ⟨.error .transport, l.opened, l.closed⟩
    | .response status _ =>
      match handleResp status 202 with
      | (some e, n) => ⟨.error e, l.opened + 1, l.closed + n⟩
      | (none, _) => ⟨.ok (), l.opened + 1, l.closed + 1⟩

/-! ## Codec lemmas -/

theorem b64Char_mem (n : Nat) : b64Char n ∈ b64Alphabet := by
  unfold b64Char
  rcases Nat.lt_or_ge n b64Alphabet.length with h | h
  · rw [List.getD_eq_getElem _ _ h]
    exact List.getElem_mem h
  · rw [List.getD_eq_default _ _ h]
    decide

theorem b64Index_b64Char_fin : ∀ n : Fin 64, b64Index (b64Char n.val) = some n.val := by
  decide

theorem b64Index_b64Char (n : Nat) (h : n < 64) :
    b64Index (b64Char n) = some n :=
  b64Index_b64Char_fin ⟨n, h⟩

theorem alphabet_char_ne : ∀ c ∈ b64Alphabet,
    c ≠ '=' ∧ c ≠ '.' ∧ c ≠ '\x0d' ∧ c ≠ '\x0a' := by
  decide

theorem b64Char_ne_pad (n : Nat) : b64Char n ≠ '=' :=
  (alphabet_char_ne _ (b64Char_mem n)).1

theorem mem_encodeB64 (k : List Nat) :
    ∀ c ∈ encodeB64 k, c ∈ b64Alphabet ∨ c = '=' := by
  induction k using encodeB64.induct with
  | case1 => intro c hc; cases hc
  | case2 a =>
    intro c hc
    simp only [encodeB64, List.mem_cons, List.not_mem_nil, or_false] at hc
    rcases hc with rfl | rfl | rfl | rfl
    · exact Or.inl (b64Char_mem _)
    · exact Or.inl (b64Char_mem _)
    · exact Or.inr rfl
    · exact Or.inr rfl
  | case3 a b =>
    intro c hc
    simp only [encodeB64, List.mem_cons, List.not_mem_nil, or_false] at hc
    rcases hc with rfl | rfl | rfl | rfl
    · exact Or.inl (b64Char_mem _)
    · exact Or.inl (b64Char_mem _)
    · exact Or.inl (b64Char_mem _)
    · exact Or.inr rfl
  | case4 a b c rest ih =>
    intro x hx
    simp only [encodeB64, List.mem_cons] at hx
    rcases hx with rfl | rfl | rfl | rfl | hx
    · exact Or.inl (b64Char_mem _)
    · exact Or.inl (b64Char_mem _)
    · exact Or.inl (b64Char_mem _)
    · exact Or.inl (b64Char_mem _)
    · exact ih x hx

theorem encodeB64_char_ne (k : List Nat) :
    ∀ c ∈ encodeB64 k, c ≠ '.' ∧ c ≠ '\x0d' ∧ c ≠ '\x0a' := by
  intro c hc
  rcases mem_encodeB64 k c hc with h | rfl
  · exact (alphabet_char_ne c h).2
  · exact ⟨by decide, by decide, by decide⟩

theorem stripNl_encodeB64 (k : List Nat) :
    stripNl (encodeB64 k) = encodeB64 k := by
  unfold stripNl
  rw [List.filter_eq_self]
  intro c hc
  rcases encodeB64_char_ne k c hc with ⟨_, h1, h2⟩
  simp [h1, h2]

theorem takeWhile_dot_encodeB64 (k : List Nat) (t : List Char) :
    (encodeB64 k ++ t).takeWhile (fun c => c != '.') =
      encodeB64 k ++ t.takeWhile (fun c => c != '.') := by
  induction k using encodeB64.induct with
  | case1 => rfl
  | case2 a =>
    have h1 := (encodeB64_char_ne [a] (b64Char (a / 4))
      (by simp [encodeB64])).1
    have h2 := (encodeB64_char_ne [a] (b64Char (a % 4 * 16))
      (by simp [encodeB64])).1
    simp [encodeB64, List.takeWhile_cons, h1, h2]
  | case3 a b =>
    have h1 := (encodeB64_char_ne [a, b] (b64Char (a / 4))
      (by simp [encodeB64])).1
    have h2 := (encodeB64_char_ne [a, b] (b64Char (a % 4 * 16 + b / 16))
      (by simp [encodeB64])).1
    have h3 := (encodeB64_char_ne [a, b] (b64Char (b % 16 * 4))
      (by simp [encodeB64])).1
    simp [encodeB64, List.takeWhile_cons, h1, h2, h3]
  | case4 a b c rest ih =>
    have h1 := (encodeB64_char_ne (a :: b :: c :: rest) (b64Char (a / 4))
      (by simp [encodeB64])).1
    have h2 := (encodeB64_char_ne (a :: b :: c :: rest)
      (b64Char (a % 4 * 16 + b / 16)) (by simp [encodeB64])).1
    have h3 := (encodeB64_char_ne (a :: b :: c :: rest)
      (b64Char (b % 16 * 4 + c / 64)) (by simp [encodeB64])).1
    have h4 := (encodeB64_char_ne (a :: b :: c :: rest)
      (b64Char (c % 64)) (by simp [encodeB64])).1
    simp only [encodeB64, List.cons_append, List.takeWhile_cons]
    simp only [bne_iff_ne, ne_eq, h1, h2, h3, h4, not_false_eq_true,
      if_true, if_pos]
    simpa [encodeB64] using ih

theorem decodeB64Core_encodeB64 (k : List Nat) (hk : ∀ x ∈ k, x < 256) :
    decodeB64Core (encodeB64 k) = some k := by
  induction k using encodeB64.induct with
  | case1 => rfl
  | case2 a =>
    have ha : a < 256 := hk a (by simp)
    have h1 := b64Index_b64Char (a / 4) (by omega)
    have h2 := b64Index_b64Char (a % 4 * 16) (by omega)
    have e1 : a / 4 * 4 + a % 4 * 16 / 16 = a := by omega
    simp [encodeB64, decodeB64Core, h1, h2, e1] <;> omega
  | case3 a b =>
    have ha : a < 256 := hk a (by simp)
    have hb : b < 256 := hk b (by simp)
    have h1 := b64Index_b64Char (a / 4) (by omega)
    have h2 := b64Index_b64Char (a % 4 * 16 + b / 16) (by omega)
    have h3 := b64Index_b64Char (b % 16 * 4) (by omega)
    have e1 : a / 4 * 4 + (a % 4 * 16 + b / 16) / 16 = a := by omega
    have e2 : (a % 4 * 16 + b / 16) % 16 * 16 + b % 16 * 4 / 4 = b := by
      omega
    simp [encodeB64, decodeB64Core, h1, h2, h3, b64Char_ne_pad, e1, e2] <;>
      omega
  | case4 a b c rest ih =>
    have ha : a < 256 := hk a (by simp)
    have hb : b < 256 := hk b (by simp)
    have hc : c < 256 := hk c (by simp)
    have hrest : ∀ x ∈ rest, x < 256 := fun x hx => hk x (by simp [hx])
    have h1 := b64Index_b64Char (a / 4) (by omega)
    have h2 := b64Index_b64Char (a % 4 * 16 + b / 16) (by omega)
    have h3 := b64Index_b64Char (b % 16 * 4 + c / 64) (by omega)
    have h4 := b64Index_b64Char (c % 64) (by omega)
    have e1 : a / 4 * 4 + (a % 4 * 16 + b / 16) / 16 = a := by omega
    have e2 : (a % 4 * 16 + b / 16) % 16 * 16 +
        (b % 16 * 4 + c / 64) / 4 = b := by omega
    have e3 : (b % 16 * 4 + c / 64) % 4 * 64 + c % 64 = c := by omega
    simp [encodeB64, decodeB64Core, h1, h2, h3, h4, b64Char_ne_pad,
      ih hrest, e1, e2, e3]

theorem isB64Char_eq (c : Char) : isB64Char c = (b64Index c).isSome := by
  unfold isB64Char b64Index
  by_cases h : c ∈ b64Alphabet
  · have hlt : b64Alphabet.indexOf c < b64Alphabet.length :=
      List.indexOf_lt_length.mpr h
    simp [hlt, h]
  · have hge : ¬ b64Alphabet.indexOf c < b64Alphabet.length := by
      simp [List.indexOf_lt_length, h]
    simp [hge, h]

/-- Success of the transcribed decoder coincides with the validity
grammar written from the specification. -/
theorem decodeB64Core_isSome_eq :
    ∀ s, (decodeB64Core s).isSome = validB64Core s
  | [] => rfl
  | [_] => rfl
  | [_, _] => rfl
  | [_, _, _] => rfl
  | c1 :: c2 :: c3 :: c4 :: rest => by
    have ih := decodeB64Core_isSome_eq rest
    rcases h1 : b64Index c1 with _ | a <;>
      rcases h2 : b64Index c2 with _ | b
    · simp [decodeB64Core, validB64Core, isB64Char_eq, h1, h2]
    · simp [decodeB64Core, validB64Core, isB64Char_eq, h1, h2]
    · simp [decodeB64Core, validB64Core, isB64Char_eq, h1, h2]
    by_cases hc3 : c3 = '='
    · by_cases hc4 : c4 = '=' ∧ rest = [] <;>
        simp [decodeB64Core, validB64Core, isB64Char_eq, h1, h2, hc3,
          hc4, List.isEmpty_iff]
      intro h
      simp [h] at hc4
      simp [hc4]
    rcases h3 : b64Index c3 with _ | c
    · simp [decodeB64Core, validB64Core, isB64Char_eq, h1, h2, hc3, h3]
    by_cases hc4 : c4 = '='
    · rcases rest with _ | ⟨r, rs⟩ <;>
        simp [decodeB64Core, validB64Core, isB64Char_eq, h1, h2, hc3,
          h3, hc4]
    rcases h4 : b64Index c4 with _ | d <;>
      simp [decodeB64Core, validB64Core, isB64Char_eq, h1, h2, hc3, h3,
        hc4, h4, ih]

/-- An input rejected by the validity grammar is rejected by the
decoder. -/
theorem decodeB64_eq_none_of_not_valid (s : List Char)
    (h : validB64 s = false) : decodeB64 s = none := by
  have := decodeB64Core_isSome_eq (stripNl s)
  unfold validB64 at h
  unfold decodeB64
  rw [h] at this
  exact Option.not_isSome_iff_eq_none.mp (by simp [this])

theorem decodeFilename_encodeB64 (k : List Nat) (hk : ∀ x ∈ k, x < 256) :
    decodeFilename (encodeB64 k) = some k := by
  unfold decodeFilename decodeB64
  have h := takeWhile_dot_encodeB64 k []
  simp only [List.append_nil, List.takeWhile_nil] at h
  rw [h, stripNl_encodeB64, decodeB64Core_encodeB64 k hk]

/-! ## Helper lemmas for the operation theorems -/

theorem takeWhile_append_all {α : Type} (p : α → Bool) (s t : List α)
    (h : ∀ c ∈ s, p c = true) :
    (s ++ t).takeWhile p = s ++ t.takeWhile p := by
  induction s with
  | nil => rfl
  | cons x xs ih =>
    have hx : p x = true := h x (by simp)
    simp only [List.cons_append, List.takeWhile_cons, hx, if_true]
    rw [ih fun c hc => h c (by simp [hc])]

theorem handleResp_cases (s e : Nat) :
    handleResp s e = (none, 0) ∨
      handleResp s e = (some Err.notFound, 1) ∨
      handleResp s e = (some Err.unexpectedStatus, 1) := by
  unfold handleResp
  by_cases h1 : s = e
  · simp [h1]
  · rw [if_pos h1]
    by_cases h2 : s = 404 <;> simp [h2]

theorem handleResp_match (s e : Nat) (h : s ≠ e) :
    handleResp s e =
      (if s = 404 then some Err.notFound else some Err.unexpectedStatus,
       1) := by
  unfold handleResp
  rw [if_pos h]

theorem handleResp_ok (s : Nat) : handleResp s s = (none, 0) := by
  unfold handleResp
  simp

theorem assign_balanced (resp : HttpResult (Option RawAssignResult)) :
    (Assign resp).opened = (Assign resp).closed := by
  rcases resp with _ | ⟨s, body⟩
  · rfl
  · rcases handleResp_cases s 200 with h | h | h <;>
      rcases body with _ | r <;> simp [Assign, h]

theorem upload_balanced (r : AssignResult) (copyOk : Bool)
    (resp : HttpResult Unit) :
    (Upload r copyOk resp).opened = (Upload r copyOk resp).closed := by
  rcases copyOk with _ | _
  · rfl
  · rcases resp with _ | ⟨s, b⟩
    · rfl
    · rcases handleResp_cases s 201 with h | h | h <;> simp [Upload, h]

theorem lookup_balanced (f : List Char)
    (resp : HttpResult (Option LookupResult)) (draw : Nat) :
    (lookup f resp draw).opened = (lookup f resp draw).closed := by
  unfold lookup
  rcases hd : decodeFilename f with _ | fid
  · rfl
  · rcases resp with _ | ⟨s, body⟩
    · rfl
    · rcases handleResp_cases s 200 with h | h | h <;>
        rcases body with _ | r <;> simp [h] <;>
        rcases hl : r.locations with _ | ⟨l, ls⟩ <;> simp

theorem get_balanced (f : List Char)
    (lresp : HttpResult (Option LookupResult)) (draw : Nat)
    (gresp : Option GetResp) :
    (Get f lresp draw gresp).opened = (Get f lresp draw gresp).closed := by
  unfold Get
  have hb := lookup_balanced f lresp draw
  rcases hl : (lookup f lresp draw).result with e | u
  · simpa [hl] using hb
  · rcases gresp with _ | r
    · simpa [hl] using hb
    · rcases handleResp_cases r.status 200 with h | h | h <;>
        simp [hl, h, hb]

theorem delete_balanced (f : List Char)
    (lresp : HttpResult (Option LookupResult)) (draw : Nat)
    (dresp : HttpResult Unit) :
    (Delete f lresp draw dresp).opened =
      (Delete f lresp draw dresp).closed := by
  unfold Delete
  have hb := lookup_balanced f lresp draw
  rcases hl : (lookup f lresp draw).result with e | u
  · simpa [hl] using hb
  · rcases dresp with _ | ⟨s, b⟩
    · simpa [hl] using hb
    · rcases handleResp_cases s 202 with h | h | h <;> simp [hl, h, hb]

/-! ## Claim theorems -/

/-- Claim C1: for every byte string `k`, decoding the opaque filename
produced by `AssignResult.Filename` (padded URL-safe base-64 of the
internal key) with the filename-decoding step used by
`NewResult`/`Get`/`Delete` yields `k` again. -/
theorem c1_roundtrip (r : AssignResult) (hk : ∀ x ∈ r.fid, x < 256) :
    decodeFilename r.Filename = some r.fid := by
  unfold AssignResult.Filename
  exact decodeFilename_encodeB64 r.fid hk

/-- Claim C1, witness: the round trip at the key `"3,abc"`
(bytes `[51, 44, 97, 98, 99]`). -/
theorem c1_roundtrip_witness :
    (∀ x ∈ [51, 44, 97, 98, 99], x < 256) ∧
      decodeFilename (AssignResult.Filename ⟨[51, 44, 97, 98, 99], []⟩) =
        some [51, 44, 97, 98, 99] :=
  ⟨by decide, c1_roundtrip ⟨[51, 44, 97, 98, 99], []⟩ (by decide)⟩

/-- Claim C2: the decoder discards everything from the first `.`
onward before base-64 decoding; in particular appending any extension
suffix such as `".jpg"` to an encoded key does not change the decoded
result. -/
theorem c2_extension_stripping :
    (∀ s t : List Char, (∀ c ∈ s, c ≠ '.') →
        decodeFilename (s ++ '.' :: t) = decodeB64 s) ∧
    (∀ (r : AssignResult) (ext : List Char), (∀ x ∈ r.fid, x < 256) →
        decodeFilename (r.Filename ++ '.' :: ext) = some r.fid) := by
  have hgen : ∀ s t : List Char, (∀ c ∈ s, c ≠ '.') →
      decodeFilename (s ++ '.' :: t) = decodeB64 s := by
    intro s t h
    unfold decodeFilename
    rw [takeWhile_append_all _ s ('.' :: t) fun c hc => by
      simp [h c hc]]
    simp [List.takeWhile_cons]
  refine ⟨hgen, fun r ext hk => ?_⟩
  rw [hgen r.Filename ext fun c hc =>
    (encodeB64_char_ne r.fid c hc).1]
  unfold AssignResult.Filename decodeB64
  rw [stripNl_encodeB64, decodeB64Core_encodeB64 r.fid hk]

/-- Claim C2, witness: `decode(encode("hi") ++ ".jpg") = "hi"`. -/
theorem c2_extension_stripping_witness :
    (∀ x ∈ [104, 105], x < 256) ∧
      decodeFilename (AssignResult.Filename ⟨[104, 105], []⟩ ++
          '.' :: ['j', 'p', 'g']) = some [104, 105] :=
  ⟨by decide,
   c2_extension_stripping.2 ⟨[104, 105], []⟩ ['j', 'p', 'g'] (by decide)⟩

/-- Claim C3: a 404 from the master, or a 200 with an empty locations
list, makes `lookup` fail with `ErrorNotFound`; any other non-success
status yields the generic request error, and the two are distinct
values classified differently by the taxonomy. -/
theorem c3_lookup_errors (f : List Char) (fid : List Nat)
    (hd : decodeFilename f = some fid) (draw : Nat) :
    (∀ body, (lookup f (HttpResult.response 404 body) draw).result =
        .error Err.notFound) ∧
    ((lookup f (HttpResult.response 200 (some ⟨[]⟩)) draw).result =
        .error Err.notFound) ∧
    (∀ s body, s ≠ 200 → s ≠ 404 →
        (lookup f (HttpResult.response s body) draw).result =
          .error Err.unexpectedStatus) ∧
    (classify Err.notFound = ErrKind.notFound ∧
     classify Err.unexpectedStatus = ErrKind.requestError ∧
     Err.notFound ≠ Err.unexpectedStatus) := by
  refine ⟨?_, ?_, ?_, by decide⟩
  · intro body
    unfold lookup
    rw [hd]
    rcases body with _ | r <;> rfl
  · unfold lookup
    rw [hd]
    rfl
  · intro s body hs h4
    unfold lookup
    rw [hd]
    rcases body with _ | r <;>
      simp [handleResp_match s 200 hs, h4]

/-- Claim C3, witness: the empty filename decodes (to the empty key),
and the three error shapes at statuses 404, 200-with-no-locations,
and 500. -/
theorem c3_lookup_errors_witness :
    decodeFilename [] = some [] ∧
    (lookup [] (HttpResult.response 404 none) 0).result =
      .error Err.notFound ∧
    (lookup [] (HttpResult.response 200 (some ⟨[]⟩)) 0).result =
      .error Err.notFound ∧
    (lookup [] (HttpResult.response 500 none) 0).result =
      .error Err.unexpectedStatus :=
  ⟨rfl,
   (c3_lookup_errors [] [] rfl 0).1 none,
   (c3_lookup_errors [] [] rfl 0).2.1,
   (c3_lookup_errors [] [] rfl 0).2.2.1 500 none (by decide) (by decide)⟩

/-- Claim C4, counterexample: a 404 response to the upload PUT makes
`Upload` fail with `ErrorNotFound`, which the taxonomy does not
classify as a request error — refuting "for every other response
status (including 404) the operation fails with RequestError, never
with NotFound". -/
theorem c4_counterexample :
    (Upload ⟨[], []⟩ true (HttpResult.response 404 ())).result =
        Except.error Err.notFound ∧
      classify Err.notFound ≠ ErrKind.requestError :=
  ⟨rfl, by decide⟩

/-- Claim C4 as amended: `Upload` succeeds exactly when the volume
server answers 201; every other status except 404 yields the generic
request error, while a 404 yields `ErrorNotFound`. -/
theorem c4_upload_status (r : AssignResult) (s : Nat) :
    ((Upload r true (HttpResult.response s ())).result = .ok () ↔
        s = 201) ∧
    (s = 404 → (Upload r true (HttpResult.response s ())).result =
        .error Err.notFound) ∧
    (s ≠ 201 → s ≠ 404 →
        (Upload r true (HttpResult.response s ())).result =
          .error Err.unexpectedStatus) := by
  by_cases hs : s = 201
  · subst hs
    exact ⟨by simp [Upload, handleResp_ok], fun h => absurd h (by decide),
      fun h _ => absurd rfl h⟩
  · by_cases h4 : s = 404
    · subst h4
      exact ⟨by simp [Upload, handleResp], fun _ => by
        simp [Upload, handleResp], fun _ h => absurd rfl h⟩
    · have hm := handleResp_match s 201 hs
      exact ⟨by simp [Upload, hm, h4, hs], fun h => absurd h h4,
        fun _ _ => by simp [Upload, hm, h4]⟩

/-- Claim C4, witness: the three amended outcomes at statuses 201, 500
and 404. -/
theorem c4_upload_status_witness :
    (Upload ⟨[], []⟩ true (HttpResult.response 201 ())).result =
      .ok () ∧
    (Upload ⟨[], []⟩ true (HttpResult.response 500 ())).result =
      .error Err.unexpectedStatus ∧
    (Upload ⟨[], []⟩ true (HttpResult.response 404 ())).result =
      .error Err.notFound :=
  ⟨(c4_upload_status ⟨[], []⟩ 201).1.mpr rfl,
   (c4_upload_status ⟨[], []⟩ 500).2.2 (by decide) (by decide),
   (c4_upload_status ⟨[], []⟩ 404).2.1 rfl⟩

/-- Claim C5, counterexample: were the master to answer the assign GET
with a 404 status, `Assign` would fail with `ErrorNotFound`, not with
a generic request error — refuting "whatever status the master
returns, the operation never fails with the NotFound error". -/
theorem c5_counterexample :
    (Assign (HttpResult.response 404 none)).result =
        Except.error Err.notFound ∧
      classify Err.notFound ≠ ErrKind.requestError :=
  ⟨rfl, by decide⟩

/-- Claim C5 as amended: `Assign` fails with `ErrorNotFound` exactly on
a 404 status; any other non-200 status and any transport failure yield
a request error, and a malformed JSON body on a 200 response yields a
decode error. -/
theorem c5_assign_errors (s : Nat) (body : Option RawAssignResult) :
    ((Assign HttpResult.transportError).result =
        .error Err.transport) ∧
    (s = 404 → (Assign (HttpResult.response s body)).result =
        .error Err.notFound) ∧
    (s ≠ 200 → s ≠ 404 → (Assign (HttpResult.response s body)).result =
        .error Err.unexpectedStatus) ∧
    ((Assign (HttpResult.response 200 none)).result =
        .error Err.jsonDecode) ∧
    (∀ r, (Assign (HttpResult.response 200 (some r))).result =
        .ok ⟨r.fid, r.url⟩) ∧
    (classify Err.transport = ErrKind.requestError ∧
     classify Err.unexpectedStatus = ErrKind.requestError ∧
     classify Err.jsonDecode = ErrKind.decodeError) := by
  refine ⟨rfl, ?_, ?_, rfl, fun r => rfl, by decide⟩
  · intro h
    subst h
    rcases body with _ | r <;> rfl
  · intro hs h4
    rcases body with _ | r <;>
      simp [Assign, handleResp_match s 200 hs, h4]

/-- Claim C5, witness: the amended outcomes at a 404 and a 500
response. -/
theorem c5_assign_errors_witness :
    (Assign (HttpResult.response 404 none)).result =
      .error Err.notFound ∧
    (Assign (HttpResult.response 500 none)).result =
      .error Err.unexpectedStatus :=
  ⟨(c5_assign_errors 404 none).2.1 rfl,
   (c5_assign_errors 500 none).2.2.1 (by decide) (by decide)⟩

/-- Claim C6: an input whose part before the first `.` is not valid
padded URL-safe base-64 is rejected by the decoder, hence by
`NewResult` and by the `lookup` step of `Get`/`Delete`, with an error
the taxonomy classifies as a decode error.  Decoding is total by
construction: `decodeFilename` is a total function on all inputs. -/
theorem c6_invalid_decode (f u : List Char)
    (h : validB64 (f.takeWhile (fun c => c != '.')) = false) :
    decodeFilename f = none ∧ NewResult u f = none ∧
      (∀ resp draw, (lookup f resp draw).result =
          .error Err.base64Decode) ∧
      classify Err.base64Decode = ErrKind.decodeError := by
  have hdf : decodeFilename f = none :=
    decodeB64_eq_none_of_not_valid _ h
  refine ⟨hdf, ?_, ?_, by decide⟩
  · unfold NewResult
    rw [hdf]
  · intro resp draw
    unfold lookup
    rw [hdf]

/-- Claim C6, witness: the input `"%%%%"`, whose characters are outside
the alphabet, is rejected everywhere. -/
theorem c6_invalid_decode_witness :
    validB64 (['%', '%', '%', '%'].takeWhile (fun c => c != '.')) =
      false ∧
    decodeFilename ['%', '%', '%', '%'] = none ∧
    NewResult [] ['%', '%', '%', '%'] = none :=
  ⟨by decide,
   (c6_invalid_decode ['%', '%', '%', '%'] [] (by decide)).1,
   (c6_invalid_decode ['%', '%', '%', '%'] [] (by decide)).2.1⟩

/-- Claim C7: on a non-empty replica list every index is reachable by
some draw of the random source (selection is not always-first), and
under a uniform draw from `[0, n)` each index is selected by exactly
one draw, hence with equal probability. -/
theorem c7_replica_selection (f : List Char) (fid : List Nat)
    (hd : decodeFilename f = some fid) (l : Location)
    (ls : List Location) :
    (∀ i, (hi : i < (l :: ls).length) → ∃ draw,
        (lookup f (HttpResult.response 200 (some ⟨l :: ls⟩))
            draw).result =
          .ok (volumeUrl ((l :: ls).get ⟨i, hi⟩).url fid)) ∧
    (∀ i, i < (l :: ls).length →
        ((Finset.range (l :: ls).length).filter
            (fun d => selectIdx d (l :: ls).length = i)).card = 1) := by
  constructor
  · intro i hi
    refine ⟨i, ?_⟩
    unfold lookup
    rw [hd]
    have hmod : i % (ls.length + 1) = i :=
      Nat.mod_eq_of_lt (by simpa using hi)
    simp [handleResp_ok, selectIdx, hmod]
  · intro i hi
    have hset : (Finset.range (l :: ls).length).filter
        (fun d => selectIdx d (l :: ls).length = i) = {i} := by
      ext d
      simp only [Finset.mem_filter, Finset.mem_range, selectIdx,
        Finset.mem_singleton]
      constructor
      · rintro ⟨hdlt, hmod⟩
        rwa [Nat.mod_eq_of_lt hdlt] at hmod
      · rintro rfl
        exact ⟨hi, Nat.mod_eq_of_lt hi⟩
    rw [hset]
    exact Finset.card_singleton i

/-- Claim C7, witness: with replicas `["A", "B"]` the draw `1` selects
`"B"` (so selection is not always-first), and exactly one of the two
draws selects index 1. -/
theorem c7_replica_selection_witness :
    (∃ draw, (lookup []
        (HttpResult.response 200 (some ⟨[⟨['A']⟩, ⟨['B']⟩]⟩))
        draw).result = .ok (volumeUrl ['B'] [])) ∧
    ((Finset.range 2).filter (fun d => selectIdx d 2 = 1)).card = 1 :=
  ⟨(c7_replica_selection [] [] rfl ⟨['A']⟩ [⟨['B']⟩]).1 1 (by decide),
   (c7_replica_selection [] [] rfl ⟨['A']⟩ [⟨['B']⟩]).2 1 (by decide)⟩

/-- Claim C8: every operation closes exactly as many HTTP response
bodies as it obtains, on every exit path — the transcription of every
`resp.Body.Close()` and `defer` in `Assign`, `Upload`, `lookup`, `Get`
and `Delete` balances the responses received on all branches. -/
theorem c8_bodies_closed :
    (∀ resp, (Assign resp).opened = (Assign resp).closed) ∧
    (∀ r c resp, (Upload r c resp).opened = (Upload r c resp).closed) ∧
    (∀ f resp draw,
        (lookup f resp draw).opened = (lookup f resp draw).closed) ∧
    (∀ f lresp draw gresp, (Get f lresp draw gresp).opened =
        (Get f lresp draw gresp).closed) ∧
    (∀ f lresp draw dresp, (Delete f lresp draw dresp).opened =
        (Delete f lresp draw dresp).closed) :=
  ⟨assign_balanced, upload_balanced, lookup_balanced, get_balanced,
   delete_balanced⟩

/-- Claim C9: `Get` returns the response header collection (non-nil)
together with the error when the volume server was reached but
answered a non-success status; it returns nil headers when the
filename fails to decode, the lookup fails, or the transport to the
volume server fails; on a success status the headers are returned as
well. -/
theorem c9_get_headers (f : List Char)
    (lresp : HttpResult (Option LookupResult)) (draw : Nat) :
    (∀ e, (lookup f lresp draw).result = .error e →
        ∀ gresp, (Get f lresp draw gresp).header = none ∧
          (Get f lresp draw gresp).error = some e) ∧
    (∀ u, (lookup f lresp draw).result = .ok u →
        (Get f lresp draw none).header = none ∧
          (Get f lresp draw none).error = some Err.transport) ∧
    (∀ u r, (lookup f lresp draw).result = .ok u → r.status ≠ 200 →
        (Get f lresp draw (some r)).header = some r.header ∧
          (Get f lresp draw (some r)).error =
            some (if r.status = 404 then Err.notFound
                  else Err.unexpectedStatus)) ∧
    (∀ u r, (lookup f lresp draw).result = .ok u → r.status = 200 →
        (Get f lresp draw (some r)).header = some r.header) := by
  refine ⟨?_, ?_, ?_, ?_⟩
  · intro e he gresp
    simp [Get, he]
  · intro u hu
    simp [Get, hu]
  · intro u r hu hs
    by_cases h4 : r.status = 404 <;>
      simp [Get, hu, handleResp, hs, h4]
  · intro u r hu hs
    rcases hc : r.copyErr <;>
      simp [Get, hu, hs, handleResp_ok, hc]

/-- Claim C9, witness: nil headers on an undecodable filename with a
transport-failed lookup, and non-nil headers on a 500 from the volume
server after a successful lookup. -/
theorem c9_get_headers_witness :
    (Get ['%', '%', '%', '%'] HttpResult.transportError 0 none).header =
      none ∧
    (Get [] (HttpResult.response 200 (some ⟨[⟨['A']⟩]⟩)) 0
        (some ⟨500, ⟨[]⟩, false⟩)).header = some ⟨[]⟩ :=
  ⟨((c9_get_headers ['%', '%', '%', '%'] HttpResult.transportError 0).1
      Err.base64Decode rfl none).1,
   ((c9_get_headers [] (HttpResult.response 200 (some ⟨[⟨['A']⟩]⟩)) 0).2.2.1
      (volumeUrl ['A'] []) ⟨500, ⟨[]⟩, false⟩ rfl (by decide)).1⟩

/-- Claim C10: an input whose part before the first `.` is empty (the
empty string, `".jpg"`, …) decodes successfully to the empty internal
key, and `NewResult` accepts it and produces a handle with an empty
key. -/
theorem c10_empty_part (f u : List Char)
    (h : f.takeWhile (fun c => c != '.') = []) :
    decodeFilename f = some [] ∧ NewResult u f = some ⟨[], u⟩ := by
  have hdf : decodeFilename f = some [] := by
    unfold decodeFilename decodeB64
    rw [h]
    rfl
  refine ⟨hdf, ?_⟩
  unfold NewResult
  rw [hdf]

/-- Claim C10, witness: the filename `".jpg"` yields the empty key. -/
theorem c10_empty_part_witness :
    (['.', 'j', 'p', 'g'].takeWhile (fun c => c != '.') = []) ∧
    decodeFilename ['.', 'j', 'p', 'g'] = some [] ∧
    NewResult ['x'] ['.', 'j', 'p', 'g'] = some ⟨[], ['x']⟩ :=
  ⟨by decide,
   (c10_empty_part ['.', 'j', 'p', 'g'] ['x'] (by decide)).1,
   (c10_empty_part ['.', 'j', 'p', 'g'] ['x'] (by decide)).2⟩

end Seaweed
